import Mathlib

/-!
Shallow embedding of the ONS UK retail footfall ingest pipeline
(etl/ons_uk_footfall_ingest.py): header normalization, the six melt
strategies, combined-label splitting, period-interval resolution, sheet
selection, and the upsert merge policy, together with theorems checking
the specified behaviour of each part.
-/

/-! ### Characters and Python-style trimming -/

/-- Whitespace in the sense of Python str.strip and of the regex class
backslash-s, restricted to the ASCII characters that can occur here. -/
def isPySpace (c : Char) : Bool :=
  c = ' ' || c = '\t' || c = '\n' || c = '\r' || c = '\x0b' || c = '\x0c'

/-- Python str.strip(): drop leading and trailing whitespace. -/
def pyStrip (s : List Char) : List Char :=
  ((s.dropWhile isPySpace).reverse.dropWhile isPySpace).reverse

/-- Python str.strip() on Lean strings. -/
def pyStripS (s : String) : String :=
  ⟨pyStrip s.data⟩

/-! ### The closed site-type vocabulary and the combined-label regex -/

/-- The SITE_TYPES vocabulary from the source: the only site-type labels present in the
ONS sheets. -/
def SITE_TYPES : List (List Char) :=
  ["District or Local Centre".data, "Retail Parks".data, "Town and City Centres".data]

/-- One attempt of the regex tail: the remainder after group 1 must be
nonempty whitespace followed by exactly one vocabulary label ending the
string; on success, return that label (group 2). -/
def matchesTail (t : List Char) : Option (List Char) :=
  if t.takeWhile isPySpace ≠ [] ∧ t.dropWhile isPySpace ∈ SITE_TYPES then
    some (t.dropWhile isPySpace)
  else none

/-- Backtracking search for the regex split: try group 1 = the first k
characters, from k downward, returning the first (hence greedy-longest)
split whose tail matches. -/
def reMatchFrom (s : List Char) : Nat → Option (List Char × List Char)
  | 0 =>
    match matchesTail s with
    | some l => some ([], l)
    | none => none
  | k + 1 =>
    match matchesTail (s.drop (k + 1)) with
    | some l => some (s.take (k + 1), l)
    | none => reMatchFrom s k

/-- Discard one trailing newline if present: the region of the string
that the dollar anchor of a non-multiline Python regex can see, since
dollar matches at the end of the string or just before a newline that
ends the string. -/
def chopNl (s : List Char) : List Char :=
  if s.getLast? = some '\n' then s.dropLast else s

/-- Python re.match of _site_type_re, i.e. of
(.*)(whitespace+)(District or Local Centre|Retail Parks|Town and City Centres)
anchored at the start, with the dollar anchor at the end. The dollar also
matches just before one trailing newline, so the search runs on the
string with such a newline discarded; the dot does not cross a newline,
so group 1 is at most the longest newline-free prefix; the match is
greedy in group 1. -/
def reMatch (s : List Char) : Option (List Char × List Char) :=
  reMatchFrom (chopNl s) ((chopNl s).takeWhile (fun c => c != '\n')).length

/-- The split_combo helper from _melt_week_region_site: null maps to two missing
fields; otherwise regex match (both groups stripped), then the
ends-with fallback over SITE_TYPES, else the whole string kept as the
region with no site type. -/
def split_combo : Option (List Char) → Option (List Char) × Option (List Char)
  | none => (none, none)
  | some s =>
    match reMatch s with
    | some (a, l) => (some (pyStrip a), some (pyStrip l))
    | none =>
      match SITE_TYPES.find? (fun st => decide (st <:+ s)) with
      | some st => (some (pyStrip (s.take (s.length - st.length))), some st)
      | none => (some s, none)

/-- The lambda inside _melt_month_region_site: it first coerces the cell
with str (so a missing value becomes the text nan), then either takes the
regex groups unstripped or keeps the whole string as the region. There is
no ends-with fallback here. -/
def split_combo_month (x : Option (List Char)) : Option (List Char) × Option (List Char) :=
  let s := x.getD ("nan".data)
  match reMatch s with
  | some (a, l) => (some a, some l)
  | none => (some s, none)

/-- The split_combo helper on Lean strings. -/
def split_comboS (x : Option String) : Option String × Option String :=
  let r := split_combo (x.map String.data)
  (r.1.map String.mk, r.2.map String.mk)

/-- The monthly combined-label lambda on Lean strings. -/
def split_combo_monthS (x : Option String) : Option String × Option String :=
  let r := split_combo_month (x.map String.data)
  (r.1.map String.mk, r.2.map String.mk)

/-! ### The melt engine (pandas df.melt with id_vars Date) -/

/-- A normalized wide table: the value-column headers (everything except
Date) and the rows, each carrying its Date cell and its value cells in
column order. -/
structure Wide (α : Type) where
  cols : List String
  rows : List (α × List α)

/-- One chunk of pandas melt per value column, in column-major order:
all rows of the first remaining column, then the next column, and so on;
j is the index of the first remaining column. -/
def meltAux {α : Type} (rows : List (α × List α)) : List String → Nat → List (α × String × Option α)
  | [], _ => []
  | c :: cs, j => rows.map (fun r => (r.1, c, r.2[j]?)) ++ meltAux rows cs (j + 1)

/-- Semantics of pandas df.melt(id_vars Date, var_name, value_name): one output row
(date, header, cell) per (row, value column) pair, nothing dropped. -/
def melt {α : Type} (t : Wide α) : List (α × String × Option α) :=
  meltAux t.rows t.cols 0

/-- One long observation row as produced by the six melt strategies. -/
structure LRec (α : Type) where
  date : α
  region : Option String
  site_type : Option String
  footfall_index : Option α
  period_type : String
deriving DecidableEq

/-- Strategy _melt_week_region: headers are regions, site_type pinned to all. -/
def melt_week_region {α : Type} (t : Wide α) : List (LRec α) :=
  (melt t).map (fun r => ⟨r.1, some r.2.1, some "all", r.2.2, "week"⟩)

/-- Strategy _melt_week_site: headers are site types, region pinned to UK total. -/
def melt_week_site {α : Type} (t : Wide α) : List (LRec α) :=
  (melt t).map (fun r => ⟨r.1, some "UK total", some r.2.1, r.2.2, "week"⟩)

/-- Strategy _melt_week_region_site: headers are combined labels, decomposed by
split_combo. -/
def melt_week_region_site {α : Type} (t : Wide α) : List (LRec α) :=
  (melt t).map (fun r =>
    ⟨r.1, (split_comboS (some r.2.1)).1, (split_comboS (some r.2.1)).2, r.2.2, "week"⟩)

/-- Strategy _melt_month_region. -/
def melt_month_region {α : Type} (t : Wide α) : List (LRec α) :=
  (melt t).map (fun r => ⟨r.1, some r.2.1, some "all", r.2.2, "month"⟩)

/-- Strategy _melt_month_site. -/
def melt_month_site {α : Type} (t : Wide α) : List (LRec α) :=
  (melt t).map (fun r => ⟨r.1, some "UK total", some r.2.1, r.2.2, "month"⟩)

/-- Strategy _melt_month_region_site: headers are combined labels, decomposed by
the monthly lambda (no fallback). -/
def melt_month_region_site {α : Type} (t : Wide α) : List (LRec α) :=
  (melt t).map (fun r =>
    ⟨r.1, (split_combo_monthS (some r.2.1)).1, (split_combo_monthS (some r.2.1)).2, r.2.2, "month"⟩)

/-! ### The header locator (_normalize_table) -/

/-- One spreadsheet cell as pandas sees it: a string, some other scalar,
or missing (NaN). -/
inductive Cell where
  | str (s : String)
  | num (n : Int)
  | empty
deriving DecidableEq

/-- The scan predicate of _normalize_table: a string cell whose stripped
text is exactly Date. -/
def isDateCell : Cell → Bool
  | Cell.str s => pyStrip s.data = "Date".data
  | _ => false

/-- Rendering by pandas astype(str) on one cell: strings unchanged, scalars printed,
missing rendered as the text nan. -/
def cellToStr : Cell → String
  | Cell.str s => s
  | Cell.num n => toString n
  | Cell.empty => "nan"

/-- Missing-cell test used by dropna. -/
def isEmptyCell : Cell → Bool
  | Cell.empty => true
  | _ => false

/-- Index of the first Date cell in one row, scanning left to right. -/
def findIn : List Cell → Option Nat
  | [] => none
  | c :: cs => if isDateCell c then some 0 else (findIn cs).map Nat.succ

/-- Row-major scan for the first Date cell, starting at row index i. -/
def findHeader (i : Nat) : List (List Cell) → Option (Nat × Nat)
  | [] => none
  | row :: rest =>
    match findIn row with
    | some j => some (i, j)
    | none => findHeader (i + 1) rest

/-- Boolean list-of-characters test: p begins q. -/
def leads : List Char → List Char → Bool
  | [], _ => true
  | _ :: _, [] => false
  | a :: as, b :: bs => a == b && leads as bs

/-- Keep the elements whose mask entry is true (pandas boolean column
selection). -/
def maskFilter {α : Type} (mask : List Bool) (xs : List α) : List α :=
  (mask.zip xs).filterMap (fun p => if p.1 then some p.2 else none)

/-- The promoted header row: the found row, from the found column on,
coerced to strings. -/
def headerStrs (g : List (List Cell)) (i j : Nat) : List String :=
  ((g[i]?.getD []).drop j).map cellToStr

/-- Column mask dropping any header that begins with Unnamed. -/
def keepMask (g : List (List Cell)) (i j : Nat) : List Bool :=
  (headerStrs g i j).map (fun h => !(leads ("Unnamed".data) h.data))

/-- Headers surviving the Unnamed filter. -/
def normHeaders (g : List (List Cell)) (i j : Nat) : List String :=
  maskFilter (keepMask g i j) (headerStrs g i j)

/-- Data rows: strictly below the header row, from the found column on,
same column mask, then fully-empty rows dropped. -/
def normRows (g : List (List Cell)) (i j : Nat) : List (List Cell) :=
  ((g.drop (i + 1)).map (fun r => maskFilter (keepMask g i j) (r.drop j))).filter
    (fun r => !(r.all isEmptyCell))

/-- The _normalize_table function: locate the first Date cell row-major, or fail;
promote its row to headers, keep columns from it rightward, drop Unnamed
columns and fully empty rows; fail if no surviving header is exactly
Date. -/
def normalize_table (g : List (List Cell)) : Except String (List String × List (List Cell)) :=
  match findHeader 0 g with
  | none => Except.error "Could not find a header row containing Date"
  | some (i, j) =>
    if "Date" ∈ normHeaders g i j then
      Except.ok (normHeaders g i j, normRows g i j)
    else
      Except.error "Normalized table does not contain a Date column after header detection"

/-! ### Dates and the period-interval resolution -/

/-- A calendar date, year-month-day. The year is an integer so that day
arithmetic never runs off an edge. -/
structure YMD where
  year : Int
  month : Nat
  day : Nat
deriving DecidableEq

/-- Gregorian leap-year rule. -/
def isLeap (y : Int) : Bool :=
  y % 4 = 0 && (y % 100 != 0 || y % 400 = 0)

/-- Length of a month. -/
def daysInMonth (y : Int) (m : Nat) : Nat :=
  if m = 2 then (if isLeap y then 29 else 28)
  else if m = 4 || m = 6 || m = 9 || m = 11 then 30
  else 31

/-- Semantics of pandas MonthEnd(1) added to a timestamp: roll forward to the end of
the current month, or, if the date already is a month end, to the end of
the following month. -/
def monthEndRoll (t : YMD) : YMD :=
  if t.day = daysInMonth t.year t.month then
    if t.month = 12 then ⟨t.year + 1, 1, 31⟩
    else ⟨t.year, t.month + 1, daysInMonth t.year (t.month + 1)⟩
  else ⟨t.year, t.month, daysInMonth t.year t.month⟩

/-- The previous calendar day. -/
def predDay (t : YMD) : YMD :=
  if 1 < t.day then ⟨t.year, t.month, t.day - 1⟩
  else if 1 < t.month then ⟨t.year, t.month - 1, daysInMonth t.year (t.month - 1)⟩
  else ⟨t.year - 1, 12, 31⟩

/-- Subtraction of a whole number of days (pandas to_timedelta in days). -/
def subDays (t : YMD) : Nat → YMD
  | 0 => t
  | n + 1 => predDay (subDays t n)

/-- Strict calendar order on dates. -/
def dateLt (a b : YMD) : Prop :=
  a.year < b.year ∨ (a.year = b.year ∧ (a.month < b.month ∨ (a.month = b.month ∧ a.day < b.day)))

/-- Calendar order on dates. -/
def dateLe (a b : YMD) : Prop :=
  a.year < b.year ∨ (a.year = b.year ∧ (a.month < b.month ∨ (a.month = b.month ∧ a.day ≤ b.day)))

/-- Column period_start_dt of parse_footfall_data: the date itself for a month
row, otherwise the date minus six days. -/
def period_start (pt : String) (d : YMD) : YMD :=
  if pt = "month" then d else subDays d 6

/-- Column period_end_dt of parse_footfall_data: month rows get period_start
plus MonthEnd(1), every other row keeps its date. -/
def period_end (pt : String) (d : YMD) : YMD :=
  if pt = "month" then monthEndRoll (period_start pt d) else d

/-- Spec wording for the monthly period end, for comparison with the
code: the last calendar day of the month containing the date. -/
def specLastDayOfMonth (t : YMD) : YMD :=
  ⟨t.year, t.month, daysInMonth t.year t.month⟩

/-- A date that exists in the calendar. -/
def validYMD (t : YMD) : Prop :=
  1 ≤ t.month ∧ t.month ≤ 12 ∧ 1 ≤ t.day ∧ t.day ≤ daysInMonth t.year t.month

/-! ### Sheet selection (_pick inside parse_footfall_data) -/

/-- Python str.lower on the character list. -/
def toLowerL (s : List Char) : List Char :=
  s.map Char.toLower

/-- Python substring test: pat occurs somewhere in hay. -/
def containsSub (pat : List Char) : List Char → Bool
  | [] => leads pat []
  | c :: rest => leads pat (c :: rest) || containsSub pat rest

/-- The test of _pick: name_part.lower() in str(k).lower(). -/
def containsCI (k pat : String) : Bool :=
  containsSub (toLowerL pat.data) (toLowerL k.data)

/-- The _pick helper: the first sheet name, in workbook order, containing the
pattern case-insensitively. -/
def pick (names : List String) (pat : String) : Option String :=
  names.find? (fun k => containsCI k pat)

/-- The six sheet-name patterns, in the order parse_footfall_data looks
them up; the melt strategy applied to each selected sheet is fixed by
this position. -/
def sheetPatterns : List String :=
  ["Weekly by region", "Weekly by site type", "Weekly by region and site",
   "Monthly by region", "Monthly by site type", "Monthly by region and site"]

/-- Look up every pattern in order; the first miss raises, so a later
pattern is never consulted after a failure and no partial selection is
returned. -/
def pickAll (names : List String) : List String → Except String (List String)
  | [] => Except.ok []
  | p :: ps =>
    match pick names p with
    | none => Except.error ("Sheet containing " ++ p ++ " not found in workbook")
    | some k =>
      match pickAll names ps with
      | Except.ok ks => Except.ok (k :: ks)
      | Except.error e => Except.error e

/-- The sheet-selection phase of parse_footfall_data: all six patterns
resolved against the workbook, or the first failure. -/
def selectSheets (names : List String) : Except String (List String) :=
  pickAll names sheetPatterns

/-! ### The upsert merge policy (upsert_dataframe) -/

/-- One row of the dataframe handed to upsert_dataframe. -/
structure FRow where
  period_start_dt : YMD
  period_end_dt : YMD
  period_type : String
  region : Option String
  site_type : Option String
  footfall_index : Option Int
  version : String
deriving DecidableEq

/-- One stored row of uk_retail_footfall, including the inserted_at
audit column that the conflict action also touches. -/
structure DBRow where
  period_start_dt : YMD
  period_end_dt : YMD
  period_type : String
  region : Option String
  site_type : Option String
  footfall_index : Option Int
  version : String
  inserted_at : Nat
deriving DecidableEq

/-- The conflict target of the insert: (period_type, period_end_dt,
region, site_type, version), on an incoming row. -/
def keyF (r : FRow) : String × YMD × Option String × Option String × String :=
  (r.period_type, r.period_end_dt, r.region, r.site_type, r.version)

/-- The same key read off a stored row. -/
def keyD (s : DBRow) : String × YMD × Option String × Option String × String :=
  (s.period_type, s.period_end_dt, s.region, s.site_type, s.version)

/-- The DO UPDATE action: replace footfall_index and period_start_dt
from the excluded row and reset inserted_at to now; every other column
keeps its stored value. -/
def applyUpdate (s : DBRow) (r : FRow) (now : Nat) : DBRow :=
  { s with
    footfall_index := r.footfall_index
    period_start_dt := r.period_start_dt
    inserted_at := now }

/-- A plain insert of an incoming row. -/
def toDB (r : FRow) (now : Nat) : DBRow :=
  ⟨r.period_start_dt, r.period_end_dt, r.period_type, r.region, r.site_type,
    r.footfall_index, r.version, now⟩

/-- INSERT ... ON CONFLICT DO UPDATE for one row: update the stored row
carrying the same key if there is one, otherwise append. -/
def upsertRow (store : List DBRow) (r : FRow) (now : Nat) : List DBRow :=
  if store.any (fun s => decide (keyD s = keyF r)) then
    store.map (fun s => if keyD s = keyF r then applyUpdate s r now else s)
  else
    store ++ [toDB r now]

/-- The upsert_dataframe loop: the whole dataframe applied row by row against the
table. -/
def upsert_dataframe (store : List DBRow) (rs : List FRow) (now : Nat) : List DBRow :=
  rs.foldl (fun st r => upsertRow st r now) store

/-- The stored keys, in row order. -/
def keysOf (store : List DBRow) : List (String × YMD × Option String × Option String × String) :=
  store.map keyD

instance {ε α : Type} [DecidableEq ε] [DecidableEq α] : DecidableEq (Except ε α) := fun a b =>
  match a, b with
  | Except.error e, Except.error f => decidable_of_iff (e = f) (by simp)
  | Except.error _, Except.ok _ => Decidable.isFalse (by simp)
  | Except.ok _, Except.error _ => Decidable.isFalse (by simp)
  | Except.ok x, Except.ok y => decidable_of_iff (x = y) (by simp)

/-! ### Concrete inputs used by witnesses and counterexamples -/

/-- A workbook name list in which every pattern resolves and the plain
region sheets come before the combined ones. -/
def namesOk : List String :=
  ["Cover", "Weekly by region", "Weekly by site type", "Weekly by region and site type",
   "Monthly by region", "Monthly by site type", "Monthly by region and site type"]

/-- The selection computed from namesOk. -/
def ksOk : List String :=
  ["Weekly by region", "Weekly by site type", "Weekly by region and site type",
   "Monthly by region", "Monthly by site type", "Monthly by region and site type"]

/-- A workbook name list in which each combined sheet precedes its
region-only sheet. -/
def namesSwapped : List String :=
  ["Cover", "Weekly by region and site type", "Weekly by region", "Weekly by site type",
   "Monthly by region and site type", "Monthly by region", "Monthly by site type"]

/-- The concrete two-column, two-row table used to witness claim C1. -/
def wTab : Wide Int :=
  ⟨["Leeds Retail Parks", "Retail Parks"], [(1, [10, 20]), (2, [30, 40])]⟩

/-- A stored row used in the claim C9 counterexample and witness. -/
def cxStored : DBRow :=
  ⟨⟨2025, 3, 8⟩, ⟨2025, 3, 14⟩, "week", some "Leeds", some "all", some 100, "2025-03-21", 0⟩

/-- An incoming row carrying the same conflict key as cxStored but a new
footfall value. -/
def cxIncoming : FRow :=
  ⟨⟨2025, 3, 8⟩, ⟨2025, 3, 14⟩, "week", some "Leeds", some "all", some 101, "2025-03-21"⟩

/-- A stored row whose key differs from cxIncoming (other version). -/
def cxOther : DBRow :=
  ⟨⟨2025, 3, 8⟩, ⟨2025, 3, 14⟩, "week", some "Leeds", some "all", some 90, "2025-02-21", 0⟩

/-- A grid with a title row, a header row carrying Date at column 1 and
one Unnamed column, one data row and one fully empty row; it witnesses
the success side of claim C6. -/
def gEx : List (List Cell) :=
  [[Cell.num 1, Cell.empty],
   [Cell.empty, Cell.str "Date", Cell.str "Leeds", Cell.str "Unnamed: 3"],
   [Cell.empty, Cell.str "w1", Cell.num 100, Cell.empty],
   [Cell.empty, Cell.empty, Cell.empty, Cell.empty]]

/-- A one-row grid whose only trimmed-Date cell carries trailing
padding and no other header is exactly Date; the defensive check makes
normalization fail on it. -/
def gPad : List (List Cell) :=
  [[Cell.str "Date ", Cell.empty]]

/-! ### Decidability of the date predicates -/

instance (a b : YMD) : Decidable (dateLt a b) := by
  unfold dateLt; infer_instance

instance (a b : YMD) : Decidable (dateLe a b) := by
  unfold dateLe; infer_instance

instance (t : YMD) : Decidable (validYMD t) := by
  unfold validYMD; infer_instance

/-! ### Date lemmas -/

lemma predDay_mk (y : Int) (m dd : Nat) (h : 1 < dd) : predDay ⟨y, m, dd⟩ = ⟨y, m, dd - 1⟩ := by
  unfold predDay
  rw [if_pos h]

lemma predDay_lt (t : YMD) : dateLt (predDay t) t := by
  obtain ⟨y, m, d⟩ := t
  unfold predDay dateLt
  split_ifs with h1 h2 <;> dsimp only [YMD.year, YMD.month, YMD.day] at * <;> omega

lemma dateLt_le {a b : YMD} (h : dateLt a b) : dateLe a b := by
  unfold dateLt at h; unfold dateLe; omega

lemma dateLe_trans {a b c : YMD} (h1 : dateLe a b) (h2 : dateLe b c) : dateLe a c := by
  unfold dateLe at h1 h2 ⊢; omega

lemma dateLe_refl (a : YMD) : dateLe a a := by
  unfold dateLe; omega

lemma subDays_le (t : YMD) (n : Nat) : dateLe (subDays t n) t := by
  induction n with
  | zero => exact dateLe_refl t
  | succ n ih => exact dateLe_trans (dateLt_le (predDay_lt (subDays t n))) ih

/-- Claim C2, corrected: for a month-tagged row the resolved interval
starts at the date itself and, whenever the date is not already the last
day of its month, ends on the last calendar day of that month (when the
date is a month end the code rolls to the end of the following month
instead); the two spec examples 2025-03-01 and 2024-02-01 behave as
stated. -/
theorem claim_C2 :
    (∀ d : YMD, d.day ≠ daysInMonth d.year d.month →
      period_start "month" d = d ∧ period_end "month" d = specLastDayOfMonth d) ∧
    period_end "month" ⟨2025, 3, 1⟩ = ⟨2025, 3, 31⟩ ∧
    period_end "month" ⟨2024, 2, 1⟩ = ⟨2024, 2, 29⟩ := by
  refine ⟨fun d h => ?_, by decide, by decide⟩
  have hs : period_start "month" d = d := by unfold period_start; rw [if_pos rfl]
  refine ⟨hs, ?_⟩
  unfold period_end
  rw [if_pos rfl, hs]
  unfold monthEndRoll specLastDayOfMonth
  rw [if_neg h]

/-- Counterexample to claim C2 as stated: on 2024-01-31, a parseable
month-tagged date, the code resolves period_end to 2024-02-29, not to
the last calendar day of the month containing the date (2024-01-31). -/
theorem claim_C2_cx :
    period_end "month" ⟨2024, 1, 31⟩ = ⟨2024, 2, 29⟩ ∧
    period_end "month" ⟨2024, 1, 31⟩ ≠ specLastDayOfMonth ⟨2024, 1, 31⟩ := by
  decide

/-- Witness for claim C2 at the concrete input 2025-03-01. -/
theorem claim_C2_witness :
    period_start "month" ⟨2025, 3, 1⟩ = ⟨2025, 3, 1⟩ ∧
    period_end "month" ⟨2025, 3, 1⟩ = specLastDayOfMonth ⟨2025, 3, 1⟩ :=
  claim_C2.1 ⟨2025, 3, 1⟩ (by decide)

/-- Claim C3, confirmed: a week-tagged row resolves, for every date and
from the tag alone, to the interval from the date minus six days to the
date; six days back stays within the month when more than six days are
gone, and the spec example 2025-03-14 gives 2025-03-08. -/
theorem claim_C3 :
    (∀ d : YMD, period_start "week" d = subDays d 6 ∧ period_end "week" d = d) ∧
    (∀ (y : Int) (m dd : Nat), 6 < dd → period_start "week" ⟨y, m, dd⟩ = ⟨y, m, dd - 6⟩) ∧
    period_start "week" ⟨2025, 3, 14⟩ = ⟨2025, 3, 8⟩ ∧
    period_end "week" ⟨2025, 3, 14⟩ = ⟨2025, 3, 14⟩ := by
  refine ⟨fun d => ⟨?_, ?_⟩, fun y m dd h => ?_, by decide, by decide⟩
  · unfold period_start; rw [if_neg (by decide)]
  · unfold period_end; rw [if_neg (by decide)]
  · unfold period_start
    rw [if_neg (by decide)]
    show subDays ⟨y, m, dd⟩ 6 = ⟨y, m, dd - 6⟩
    simp only [subDays]
    rw [predDay_mk y m dd (by omega), predDay_mk y m (dd - 1) (by omega),
      predDay_mk y m (dd - 1 - 1) (by omega), predDay_mk y m (dd - 1 - 1 - 1) (by omega),
      predDay_mk y m (dd - 1 - 1 - 1 - 1) (by omega),
      predDay_mk y m (dd - 1 - 1 - 1 - 1 - 1) (by omega)]
    have : dd - 1 - 1 - 1 - 1 - 1 - 1 = dd - 6 := by omega
    rw [this]

/-- Witness for claim C3 at the concrete inputs 2025-03-14 and
2027-05-20. -/
theorem claim_C3_witness :
    period_start "week" ⟨2025, 3, 14⟩ = ⟨2025, 3, 8⟩ ∧
    period_end "week" ⟨2025, 3, 14⟩ = ⟨2025, 3, 14⟩ ∧
    period_start "week" ⟨2027, 5, 20⟩ = ⟨2027, 5, 14⟩ :=
  ⟨claim_C3.2.2.1, claim_C3.2.2.2, claim_C3.2.1 2027 5 20 (by decide)⟩

/-- Claim C7, confirmed: for both period types, every record built from
a calendar-valid date satisfies period_end at or after period_start. -/
theorem claim_C7 :
    ∀ (pt : String) (d : YMD), pt = "week" ∨ pt = "month" → validYMD d →
      dateLe (period_start pt d) (period_end pt d) := by
  rintro pt d (rfl | rfl) hv
  · unfold period_start period_end
    rw [if_neg (by decide), if_neg (by decide)]
    exact subDays_le d 6
  · have hs : period_start "month" d = d := by unfold period_start; rw [if_pos rfl]
    unfold period_end
    rw [if_pos rfl, hs]
    obtain ⟨y, m, dd⟩ := d
    unfold validYMD at hv
    unfold monthEndRoll dateLe
    split_ifs with h1 h2 <;> dsimp only [YMD.year, YMD.month, YMD.day] at * <;> omega

/-- Witness for claim C7 at one weekly and one monthly concrete date. -/
theorem claim_C7_witness :
    dateLe (period_start "week" ⟨2025, 3, 14⟩) (period_end "week" ⟨2025, 3, 14⟩) ∧
    dateLe (period_start "month" ⟨2024, 2, 29⟩) (period_end "month" ⟨2024, 2, 29⟩) :=
  ⟨claim_C7 "week" ⟨2025, 3, 14⟩ (Or.inl rfl) (by decide),
   claim_C7 "month" ⟨2024, 2, 29⟩ (Or.inr rfl) (by decide)⟩

/-! ### Sheet-selection lemmas -/

lemma find?_eq_filter_head {α : Type} (p : α → Bool) (l : List α) :
    l.find? p = (l.filter p).head? := by
  induction l with
  | nil => rfl
  | cons a l ih =>
    cases h : p a
    · rw [List.find?_cons_of_neg, List.filter_cons_of_neg]
      · exact ih
      · simp [h]
      · simp [h]
    · rw [List.find?_cons_of_pos, List.filter_cons_of_pos]
      · rfl
      · exact h
      · exact h

lemma pickAll_error (names : List String) :
    ∀ (ps : List String) (p : String), p ∈ ps → pick names p = none →
      ∀ ks, pickAll names ps ≠ Except.ok ks := by
  intro ps
  induction ps with
  | nil => intro p h; cases h
  | cons q ps ih =>
    intro p hp hnone ks
    cases hq : pick names q with
    | none => simp [pickAll, hq]
    | some k =>
      rcases List.mem_cons.mp hp with rfl | hp'
      · rw [hq] at hnone; cases hnone
      · intro hok
        rw [pickAll, hq] at hok
        cases hrest : pickAll names ps with
        | error e => rw [hrest] at hok; cases hok
        | ok ks' => exact ih p hp' hnone ks' hrest

lemma pickAll_ok (names : List String) :
    ∀ (ps ks : List String), pickAll names ps = Except.ok ks →
      ks.length = ps.length ∧ ∀ (n : Nat) (p : String), ps[n]? = some p → ks[n]? = pick names p := by
  intro ps
  induction ps with
  | nil =>
    intro ks h
    cases h
    exact ⟨rfl, fun n p hn => by simp at hn⟩
  | cons q ps ih =>
    intro ks h
    rw [pickAll] at h
    cases hq : pick names q with
    | none => rw [hq] at h; cases h
    | some k =>
      rw [hq] at h
      cases hrest : pickAll names ps with
      | error e => rw [hrest] at h; cases h
      | ok ks' =>
        rw [hrest] at h
        cases h
        obtain ⟨hlen, hget⟩ := ih ks' hrest
        refine ⟨by simp only [List.length_cons, hlen], fun n p hn => ?_⟩
        cases n with
        | zero =>
          simp at hn
          subst hn
          simp [hq]
        | succ n =>
          simp at hn ⊢
          exact hget n p hn

/-- Claim C8, confirmed: each sheet is selected by case-insensitive
substring match of the pattern against the workbook's names, in order;
if any of the six patterns matches no sheet the whole selection fails,
returning no partial list; and on success the n-th selected sheet is
exactly what the n-th pattern picks. -/
theorem claim_C8 :
    ∀ names : List String,
      (∀ p k : String, pick names p = some k → k ∈ names ∧ containsCI k p = true) ∧
      (∀ p : String, p ∈ sheetPatterns → pick names p = none →
        ∀ ks, selectSheets names ≠ Except.ok ks) ∧
      (∀ ks : List String, selectSheets names = Except.ok ks →
        ks.length = sheetPatterns.length ∧
        ∀ (n : Nat) (p : String), sheetPatterns[n]? = some p → ks[n]? = pick names p) := by
  intro names
  refine ⟨?_, ?_, ?_⟩
  · intro p k h
    unfold pick at h
    have hh := List.find?_some h
    exact ⟨List.mem_of_find?_eq_some h, hh⟩
  · exact fun p hp hn => pickAll_error names sheetPatterns p hp hn
  · exact fun ks h => pickAll_ok names sheetPatterns ks h

/-- Witness for claim C8: one success and one failure workbook. -/
theorem claim_C8_witness :
    ("Weekly by region" ∈ namesOk ∧ containsCI "Weekly by region" "Weekly by region" = true) ∧
    selectSheets [] ≠ Except.ok ksOk ∧
    (ksOk.length = sheetPatterns.length ∧ ksOk[0]? = pick namesOk "Weekly by region") :=
  ⟨(claim_C8 namesOk).1 "Weekly by region" "Weekly by region" (by decide),
   (claim_C8 []).2.1 "Weekly by region" (by decide) rfl ksOk,
   ⟨((claim_C8 namesOk).2.2 ksOk (by decide)).1,
    ((claim_C8 namesOk).2.2 ksOk (by decide)).2 0 "Weekly by region" (by decide)⟩⟩

/-- Claim C10, confirmed: the picker takes the first name, in workbook
order, whose lower-cased form contains the lower-cased pattern; in a
workbook where the combined sheet precedes the region-only sheet, the
region-only pattern (and hence the region-only melt strategy, the first
entry of the selection) resolves to the combined region-by-site-type
sheet even though the region-only sheet is present. -/
theorem claim_C10 :
    (∀ (names : List String) (p : String),
      pick names p = (names.filter (fun k => containsCI k p)).head?) ∧
    containsCI "Weekly by region and site type" "Weekly by region" = true ∧
    "Weekly by region" ∈ namesSwapped ∧
    pick namesSwapped "Weekly by region" = some "Weekly by region and site type" ∧
    pick namesSwapped "Monthly by region" = some "Monthly by region and site type" ∧
    selectSheets namesSwapped =
      Except.ok ["Weekly by region and site type", "Weekly by site type",
        "Weekly by region and site type", "Monthly by region and site type",
        "Monthly by site type", "Monthly by region and site type"] := by
  refine ⟨fun names p => find?_eq_filter_head _ names, ?_, ?_, ?_, ?_, ?_⟩ <;> decide

/-! ### Melt lemmas -/

lemma meltAux_length {α : Type} (rows : List (α × List α)) (cs : List String) :
    ∀ j : Nat, (meltAux rows cs j).length = cs.length * rows.length := by
  induction cs with
  | nil => intro j; simp [meltAux]
  | cons c cs ih =>
    intro j
    rw [meltAux, List.length_append, List.length_map, ih (j + 1), List.length_cons,
      Nat.succ_mul, Nat.add_comm]

lemma meltAux_get {α : Type} (rows : List (α × List α)) (cs : List String) :
    ∀ (j0 jj i : Nat) (d : α) (cells : List α) (c : String),
      rows[i]? = some (d, cells) → cs[jj]? = some c →
      (meltAux rows cs j0)[jj * rows.length + i]? = some (d, c, cells[j0 + jj]?) := by
  induction cs with
  | nil => intro j0 jj i d cells c hr hc; simp at hc
  | cons c0 cs ih =>
    intro j0 jj i d cells c hr hc
    have hi : i < rows.length := by
      by_contra hge
      rw [List.getElem?_eq_none (by omega)] at hr
      cases hr
    cases jj with
    | zero =>
      simp only [List.getElem?_cons_zero] at hc
      cases hc
      rw [meltAux, Nat.zero_mul, Nat.zero_add,
        List.getElem?_append_left (by rw [List.length_map]; exact hi),
        List.getElem?_map, hr]
      rfl
    | succ k =>
      simp only [List.getElem?_cons_succ] at hc
      rw [meltAux, List.getElem?_append_right (by rw [List.length_map, Nat.succ_mul]; omega),
        List.length_map]
      have hidx : (k + 1) * rows.length + i - rows.length = k * rows.length + i := by
        rw [Nat.succ_mul]; omega
      rw [hidx]
      have harg : j0 + 1 + k = j0 + (k + 1) := by omega
      rw [← harg]
      exact ih (j0 + 1) k i d cells c hr hc

lemma melt_length {α : Type} (t : Wide α) : (melt t).length = t.cols.length * t.rows.length :=
  meltAux_length t.rows t.cols 0

lemma melt_get {α : Type} (t : Wide α) (i j : Nat) (d : α) (cells : List α) (c : String)
    (hr : t.rows[i]? = some (d, cells)) (hc : t.cols[j]? = some c) :
    (melt t)[j * t.rows.length + i]? = some (d, c, cells[j]?) := by
  have h := meltAux_get t.rows t.cols 0 j i d cells c hr hc
  rw [Nat.zero_add] at h
  exact h

/-- Claim C1, confirmed: each of the six melt strategies emits exactly
(rows times non-Date columns) records, and the record at output slot
(column j, row i) carries the row's Date unchanged, the value cell as
footfall_index (missing cells included, never dropped), and the column
header as the varying dimension: directly for the four single-dimension
strategies, through the respective label splitter for the two combined
strategies. -/
theorem claim_C1 :
    ∀ {α : Type} (t : Wide α) (i j : Nat) (d : α) (cells : List α) (c : String),
      t.rows[i]? = some (d, cells) → t.cols[j]? = some c →
      ((melt_week_region t).length = t.cols.length * t.rows.length ∧
       (melt_week_site t).length = t.cols.length * t.rows.length ∧
       (melt_week_region_site t).length = t.cols.length * t.rows.length ∧
       (melt_month_region t).length = t.cols.length * t.rows.length ∧
       (melt_month_site t).length = t.cols.length * t.rows.length ∧
       (melt_month_region_site t).length = t.cols.length * t.rows.length) ∧
      ((melt_week_region t)[j * t.rows.length + i]? =
         some ⟨d, some c, some "all", cells[j]?, "week"⟩ ∧
       (melt_week_site t)[j * t.rows.length + i]? =
         some ⟨d, some "UK total", some c, cells[j]?, "week"⟩ ∧
       (melt_week_region_site t)[j * t.rows.length + i]? =
         some ⟨d, (split_comboS (some c)).1, (split_comboS (some c)).2, cells[j]?, "week"⟩ ∧
       (melt_month_region t)[j * t.rows.length + i]? =
         some ⟨d, some c, some "all", cells[j]?, "month"⟩ ∧
       (melt_month_site t)[j * t.rows.length + i]? =
         some ⟨d, some "UK total", some c, cells[j]?, "month"⟩ ∧
       (melt_month_region_site t)[j * t.rows.length + i]? =
         some ⟨d, (split_combo_monthS (some c)).1, (split_combo_monthS (some c)).2, cells[j]?, "month"⟩) := by
  intro α t i j d cells c hr hc
  have hm := melt_get t i j d cells c hr hc
  have hlen := melt_length t
  refine ⟨⟨?_, ?_, ?_, ?_, ?_, ?_⟩, ?_, ?_, ?_, ?_, ?_, ?_⟩
  · rw [melt_week_region, List.length_map, hlen]
  · rw [melt_week_site, List.length_map, hlen]
  · rw [melt_week_region_site, List.length_map, hlen]
  · rw [melt_month_region, List.length_map, hlen]
  · rw [melt_month_site, List.length_map, hlen]
  · rw [melt_month_region_site, List.length_map, hlen]
  · rw [melt_week_region, List.getElem?_map, hm]; rfl
  · rw [melt_week_site, List.getElem?_map, hm]; rfl
  · rw [melt_week_region_site, List.getElem?_map, hm]; rfl
  · rw [melt_month_region, List.getElem?_map, hm]; rfl
  · rw [melt_month_site, List.getElem?_map, hm]; rfl
  · rw [melt_month_region_site, List.getElem?_map, hm]; rfl

/-- Witness for claim C1 on the concrete table wTab at row 1, column 1. -/
theorem claim_C1_witness :
    ((melt_week_region wTab).length = wTab.cols.length * wTab.rows.length ∧
     (melt_week_site wTab).length = wTab.cols.length * wTab.rows.length ∧
     (melt_week_region_site wTab).length = wTab.cols.length * wTab.rows.length ∧
     (melt_month_region wTab).length = wTab.cols.length * wTab.rows.length ∧
     (melt_month_site wTab).length = wTab.cols.length * wTab.rows.length ∧
     (melt_month_region_site wTab).length = wTab.cols.length * wTab.rows.length) ∧
    ((melt_week_region wTab)[1 * wTab.rows.length + 1]? =
       some ⟨2, some "Retail Parks", some "all", [(30 : Int), 40][1]?, "week"⟩ ∧
     (melt_week_site wTab)[1 * wTab.rows.length + 1]? =
       some ⟨2, some "UK total", some "Retail Parks", [(30 : Int), 40][1]?, "week"⟩ ∧
     (melt_week_region_site wTab)[1 * wTab.rows.length + 1]? =
       some ⟨2, (split_comboS (some "Retail Parks")).1, (split_comboS (some "Retail Parks")).2,
         [(30 : Int), 40][1]?, "week"⟩ ∧
     (melt_month_region wTab)[1 * wTab.rows.length + 1]? =
       some ⟨2, some "Retail Parks", some "all", [(30 : Int), 40][1]?, "month"⟩ ∧
     (melt_month_site wTab)[1 * wTab.rows.length + 1]? =
       some ⟨2, some "UK total", some "Retail Parks", [(30 : Int), 40][1]?, "month"⟩ ∧
     (melt_month_region_site wTab)[1 * wTab.rows.length + 1]? =
       some ⟨2, (split_combo_monthS (some "Retail Parks")).1,
         (split_combo_monthS (some "Retail Parks")).2, [(30 : Int), 40][1]?, "month"⟩) :=
  claim_C1 wTab 1 1 2 [30, 40] "Retail Parks" (by decide) (by decide)

/-! ### Upsert lemmas -/

lemma upsertRow_conflict (store : List DBRow) (r : FRow) (now : Nat)
    (h : store.any (fun s => decide (keyD s = keyF r)) = true) :
    upsertRow store r now =
      store.map (fun s => if keyD s = keyF r then applyUpdate s r now else s) := by
  unfold upsertRow
  rw [if_pos h]

lemma upsertRow_fresh (store : List DBRow) (r : FRow) (now : Nat)
    (h : store.any (fun s => decide (keyD s = keyF r)) = false) :
    upsertRow store r now = store ++ [toDB r now] := by
  unfold upsertRow
  rw [if_neg (by rw [h]; exact Bool.false_ne_true)]

lemma keyD_applyUpdate (s : DBRow) (r : FRow) (now : Nat) :
    keyD (applyUpdate s r now) = keyD s := rfl

lemma keysOf_upsertRow_conflict (store : List DBRow) (r : FRow) (now : Nat)
    (h : store.any (fun s => decide (keyD s = keyF r)) = true) :
    keysOf (upsertRow store r now) = keysOf store := by
  rw [upsertRow_conflict store r now h]
  unfold keysOf
  rw [List.map_map]
  apply List.map_congr_left
  intro s hs
  by_cases hk : keyD s = keyF r
  · simp only [Function.comp_apply, if_pos hk]
    exact keyD_applyUpdate s r now
  · simp only [Function.comp_apply, if_neg hk]

lemma keysOf_upsertRow_fresh (store : List DBRow) (r : FRow) (now : Nat)
    (h : store.any (fun s => decide (keyD s = keyF r)) = false) :
    keysOf (upsertRow store r now) = keysOf store ++ [keyF r] := by
  rw [upsertRow_fresh store r now h]
  unfold keysOf
  rw [List.map_append]
  rfl

lemma any_key_iff (store : List DBRow) (r : FRow) :
    store.any (fun s => decide (keyD s = keyF r)) = true ↔ keyF r ∈ keysOf store := by
  rw [List.any_eq_true]
  constructor
  · rintro ⟨s, hs, hk⟩
    have := of_decide_eq_true hk
    exact this ▸ List.mem_map_of_mem keyD hs
  · intro hk
    obtain ⟨s, hs, he⟩ := List.mem_map.mp hk
    exact ⟨s, hs, decide_eq_true he⟩

lemma mem_keysOf_upsertRow_self (store : List DBRow) (r : FRow) (now : Nat) :
    keyF r ∈ keysOf (upsertRow store r now) := by
  cases h : store.any (fun s => decide (keyD s = keyF r)) with
  | true =>
    rw [keysOf_upsertRow_conflict store r now h]
    exact (any_key_iff store r).mp h
  | false =>
    rw [keysOf_upsertRow_fresh store r now h]
    exact List.mem_append_right _ (List.mem_singleton.mpr rfl)

lemma mem_keysOf_upsertRow_mono (store : List DBRow) (r : FRow) (now : Nat) {k}
    (h : k ∈ keysOf store) : k ∈ keysOf (upsertRow store r now) := by
  cases ha : store.any (fun s => decide (keyD s = keyF r)) with
  | true => rw [keysOf_upsertRow_conflict store r now ha]; exact h
  | false => rw [keysOf_upsertRow_fresh store r now ha]; exact List.mem_append_left _ h

lemma mem_keysOf_upsert_dataframe_mono (rs : List FRow) (now : Nat) :
    ∀ (st : List DBRow) {k}, k ∈ keysOf st → k ∈ keysOf (upsert_dataframe st rs now) := by
  induction rs with
  | nil => intro st k h; exact h
  | cons r rs ih =>
    intro st k h
    exact ih (upsertRow st r now) (mem_keysOf_upsertRow_mono st r now h)

lemma mem_keysOf_upsert_dataframe_self (rs : List FRow) (now : Nat) :
    ∀ (st : List DBRow) (r : FRow), r ∈ rs → keyF r ∈ keysOf (upsert_dataframe st rs now) := by
  induction rs with
  | nil => intro st r h; cases h
  | cons q rs ih =>
    intro st r h
    rcases List.mem_cons.mp h with rfl | h'
    · exact mem_keysOf_upsert_dataframe_mono rs now (upsertRow st r now)
        (mem_keysOf_upsertRow_self st r now)
    · exact ih (upsertRow st q now) r h'

lemma upsert_dataframe_length_present (now : Nat) :
    ∀ (rs : List FRow) (st : List DBRow), (∀ r ∈ rs, keyF r ∈ keysOf st) →
      (upsert_dataframe st rs now).length = st.length := by
  intro rs
  induction rs with
  | nil => intro st h; rfl
  | cons r rs ih =>
    intro st h
    have hr : keyF r ∈ keysOf st := h r (List.mem_cons_self r rs)
    have ha : st.any (fun s => decide (keyD s = keyF r)) = true := (any_key_iff st r).mpr hr
    have hkeys : keysOf (upsertRow st r now) = keysOf st := keysOf_upsertRow_conflict st r now ha
    have hlen : (upsertRow st r now).length = st.length := by
      rw [upsertRow_conflict st r now ha, List.length_map]
    have := ih (upsertRow st r now)
      (fun q hq => hkeys ▸ h q (List.mem_cons_of_mem r hq))
    rw [upsert_dataframe] at this ⊢
    rw [List.foldl_cons]
    rw [this, hlen]

/-- Claim C9, corrected: the conflict key is (period_type, period_end,
region, site_type, version); on a key collision the stored row takes the
incoming footfall_index and period_start and a fresh inserted_at audit
stamp while every key field stays immutable; rows with other keys are
untouched; and loading the same rows twice leaves the same stored row
count as loading them once. -/
theorem claim_C9 :
    (∀ (s : DBRow) (r : FRow) (now : Nat),
      keyD (applyUpdate s r now) = keyD s ∧
      (applyUpdate s r now).period_type = s.period_type ∧
      (applyUpdate s r now).period_end_dt = s.period_end_dt ∧
      (applyUpdate s r now).region = s.region ∧
      (applyUpdate s r now).site_type = s.site_type ∧
      (applyUpdate s r now).version = s.version ∧
      (applyUpdate s r now).footfall_index = r.footfall_index ∧
      (applyUpdate s r now).period_start_dt = r.period_start_dt ∧
      (applyUpdate s r now).inserted_at = now) ∧
    (∀ (store : List DBRow) (r : FRow) (now i : Nat) (s : DBRow),
      store[i]? = some s → keyD s = keyF r →
      (upsertRow store r now)[i]? = some (applyUpdate s r now)) ∧
    (∀ (store : List DBRow) (r : FRow) (now i : Nat) (s : DBRow),
      store[i]? = some s → keyD s ≠ keyF r →
      (upsertRow store r now)[i]? = some s) ∧
    (∀ (rs : List FRow) (now1 now2 : Nat),
      (upsert_dataframe (upsert_dataframe [] rs now1) rs now2).length
        = (upsert_dataframe [] rs now1).length) := by
  refine ⟨fun s r now => ⟨rfl, rfl, rfl, rfl, rfl, rfl, rfl, rfl, rfl⟩, ?_, ?_, ?_⟩
  · intro store r now i s hs hk
    have ha : store.any (fun x => decide (keyD x = keyF r)) = true :=
      List.any_eq_true.mpr ⟨s, List.getElem?_mem hs, decide_eq_true hk⟩
    rw [upsertRow_conflict store r now ha, List.getElem?_map, hs]
    simp only [Option.map_some']
    rw [if_pos hk]
  · intro store r now i s hs hk
    cases ha : store.any (fun x => decide (keyD x = keyF r)) with
    | true =>
      rw [upsertRow_conflict store r now ha, List.getElem?_map, hs]
      simp only [Option.map_some']
      rw [if_neg hk]
    | false =>
      have hi : i < store.length := by
        by_contra hge
        rw [List.getElem?_eq_none (by omega)] at hs
        cases hs
      rw [upsertRow_fresh store r now ha, List.getElem?_append_left hi]
      exact hs
  · intro rs now1 now2
    exact upsert_dataframe_length_present now2 rs (upsert_dataframe [] rs now1)
      (fun r hr => mem_keysOf_upsert_dataframe_self rs now1 [] r hr)

/-- Counterexample to claim C9 as stated: on a key collision the update
also rewrites the inserted_at audit column, so footfall_index and
period_start are not the only fields that change. -/
theorem claim_C9_cx :
    keyD cxStored = keyF cxIncoming ∧
    (upsertRow [cxStored] cxIncoming 7)[0]? = some (applyUpdate cxStored cxIncoming 7) ∧
    (applyUpdate cxStored cxIncoming 7).inserted_at ≠ cxStored.inserted_at := by
  decide

/-- Witness for claim C9 on concrete one-row stores. -/
theorem claim_C9_witness :
    (upsertRow [cxStored] cxIncoming 7)[0]? = some (applyUpdate cxStored cxIncoming 7) ∧
    (upsertRow [cxOther] cxIncoming 7)[0]? = some cxOther ∧
    (upsert_dataframe (upsert_dataframe [] [cxIncoming] 1) [cxIncoming] 2).length
      = (upsert_dataframe [] [cxIncoming] 1).length :=
  ⟨claim_C9.2.1 [cxStored] cxIncoming 7 0 cxStored (by decide) (by decide),
   claim_C9.2.2.1 [cxOther] cxIncoming 7 0 cxOther (by decide) (by decide),
   claim_C9.2.2.2 [cxIncoming] 1 2⟩

/-! ### Header-locator lemmas -/

lemma mask_filter_self {α : Type} (p : α → Bool) (xs : List α) :
    maskFilter (xs.map p) xs = xs.filter p := by
  induction xs with
  | nil => rfl
  | cons a xs ih =>
    unfold maskFilter at ih ⊢
    rw [List.map_cons, List.zip_cons_cons, List.filterMap_cons]
    cases h : p a
    · rw [List.filter_cons_of_neg (by simp [h])]
      simpa [h] using ih
    · rw [List.filter_cons_of_pos h]
      simpa [h] using congrArg (List.cons a) ih

lemma findIn_some {row : List Cell} {j : Nat} (h : findIn row = some j) :
    ∃ c, row[j]? = some c ∧ isDateCell c = true := by
  induction row generalizing j with
  | nil => cases h
  | cons c cs ih =>
    rw [findIn] at h
    by_cases hc : isDateCell c = true
    · rw [if_pos hc] at h
      cases h
      exact ⟨c, by simp, hc⟩
    · rw [if_neg hc] at h
      cases hj : findIn cs with
      | none => rw [hj] at h; cases h
      | some j' =>
        rw [hj] at h
        cases h
        obtain ⟨c', hg, hd⟩ := ih hj
        exact ⟨c', by simpa using hg, hd⟩

lemma findIn_none {row : List Cell} :
    findIn row = none ↔ ∀ c ∈ row, isDateCell c = false := by
  induction row with
  | nil => simp [findIn]
  | cons c cs ih =>
    rw [findIn]
    by_cases hc : isDateCell c = true
    · rw [if_pos hc]
      simp [hc]
    · rw [if_neg hc]
      rw [Bool.not_eq_true] at hc
      cases hj : findIn cs with
      | none =>
        simp only [Option.map_none', List.forall_mem_cons]
        exact ⟨fun _ => ⟨hc, ih.mp hj⟩, fun _ => trivial⟩
      | some j' =>
        simp only [Option.map_some', List.forall_mem_cons]
        constructor
        · intro h; cases h
        · rintro ⟨h1, h2⟩
          rw [ih.mpr h2] at hj
          cases hj

lemma findHeader_none (g : List (List Cell)) :
    ∀ n, findHeader n g = none ↔ ∀ row ∈ g, ∀ c ∈ row, isDateCell c = false := by
  induction g with
  | nil => intro n; simp [findHeader]
  | cons row rest ih =>
    intro n
    rw [findHeader]
    cases hr : findIn row with
    | some j =>
      simp only [List.forall_mem_cons]
      constructor
      · intro h; cases h
      · rintro ⟨h1, _⟩
        rw [findIn_none.mpr h1] at hr
        cases hr
    | none =>
      rw [ih (n + 1)]
      simp only [List.forall_mem_cons]
      exact ⟨fun h2 => ⟨findIn_none.mp hr, h2⟩, fun h2 => h2.2⟩

lemma findHeader_some (g : List (List Cell)) :
    ∀ n i j, findHeader n g = some (i, j) →
      n ≤ i ∧ ∃ row, g[i - n]? = some row ∧ findIn row = some j := by
  induction g with
  | nil => intro n i j h; cases h
  | cons row rest ih =>
    intro n i j h
    rw [findHeader] at h
    cases hr : findIn row with
    | some j' =>
      rw [hr] at h
      cases h
      exact ⟨Nat.le_refl _, row, by simp, hr⟩
    | none =>
      rw [hr] at h
      obtain ⟨hn, row', hget, hfind⟩ := ih (n + 1) i j h
      refine ⟨by omega, row', ?_, hfind⟩
      have : i - n = (i - (n + 1)) + 1 := by omega
      rw [this, List.getElem?_cons_succ]
      exact hget

lemma normHeaders_eq (g : List (List Cell)) (i j : Nat) :
    normHeaders g i j = (headerStrs g i j).filter (fun h => !(leads ("Unnamed".data) h.data)) :=
  mask_filter_self _ _

/-- Claim C6, corrected: the locator fails with the header error exactly
when no cell of the grid has trimmed text Date. Given a found cell, the
run succeeds exactly when the promoted surviving headers contain the
literal Date (and then the result has no header beginning with Unnamed
and every row comes from strictly below the header row, restricted to
the columns from the header column rightward, with no fully empty row
kept); otherwise the defensive Date-column check fails the sheet. A
found cell holding the text Date exactly, with no surrounding
whitespace, always places the literal Date among the surviving headers,
so the run then succeeds; a padded found cell keeps its padding and
succeeds only if some other promoted header is exactly Date. -/
theorem claim_C6 :
    ∀ (g : List (List Cell)) (i j : Nat) (row : List Cell),
      (findHeader 0 g = none →
        normalize_table g = Except.error "Could not find a header row containing Date") ∧
      (findHeader 0 g = none ↔ ∀ row' ∈ g, ∀ c ∈ row', isDateCell c = false) ∧
      (findHeader 0 g = some (i, j) → "Date" ∈ normHeaders g i j →
        normalize_table g = Except.ok (normHeaders g i j, normRows g i j) ∧
        (∀ h ∈ normHeaders g i j, leads ("Unnamed".data) h.data = false) ∧
        (∀ r ∈ normRows g i j,
          (∃ orig ∈ g.drop (i + 1), r = maskFilter (keepMask g i j) (orig.drop j)) ∧
          r.all isEmptyCell = false)) ∧
      (findHeader 0 g = some (i, j) → "Date" ∉ normHeaders g i j →
        normalize_table g =
          Except.error "Normalized table does not contain a Date column after header detection") ∧
      (findHeader 0 g = some (i, j) → g[i]? = some row → row[j]? = some (Cell.str "Date") →
        "Date" ∈ normHeaders g i j) := by
  intro g i j row
  refine ⟨?_, findHeader_none g 0, ?_, ?_, ?_⟩
  · intro h
    unfold normalize_table
    rw [h]
  · intro hf hmem
    refine ⟨?_, ?_, ?_⟩
    · simp only [normalize_table, hf]
      rw [if_pos hmem]
    · intro h hh
      rw [normHeaders_eq] at hh
      have hp := (List.mem_filter.mp hh).2
      simpa using hp
    · intro r hr
      unfold normRows at hr
      have hm := List.mem_filter.mp hr
      obtain ⟨orig, ho, he⟩ := List.mem_map.mp hm.1
      exact ⟨⟨orig, ho, he.symm⟩, by simpa using hm.2⟩
  · intro hf hmem
    simp only [normalize_table, hf]
    rw [if_neg hmem]
  · intro hf hrow hcell
    have hhead : (headerStrs g i j)[0]? = some "Date" := by
      unfold headerStrs
      rw [hrow]
      simp only [Option.getD_some]
      rw [List.getElem?_map, List.getElem?_drop, Nat.add_zero, hcell]
      rfl
    rw [normHeaders_eq]
    exact List.mem_filter.mpr ⟨List.getElem?_mem hhead, by decide⟩

/-- Counterexample to claim C6 as stated: the one-cell grid holding the
text Date padded with spaces has a cell whose trimmed text is exactly
Date, yet normalization fails (the promoted header keeps the padding, so
the defensive Date-column check raises) instead of succeeding. -/
theorem claim_C6_cx :
    isDateCell (Cell.str " Date ") = true ∧
    normalize_table [[Cell.str " Date "]] =
      Except.error "Normalized table does not contain a Date column after header detection" := by
  decide

/-- Witness for claim C6: a grid with no Date cell at all, the concrete
grid gEx whose header cell is exactly Date, and the padded grid gPad
that trips the defensive check. -/
theorem claim_C6_witness :
    normalize_table [[Cell.num 1]] =
      Except.error "Could not find a header row containing Date" ∧
    normalize_table gEx = Except.ok (normHeaders gEx 1 1, normRows gEx 1 1) ∧
    "Date" ∈ normHeaders gEx 1 1 ∧
    normalize_table gPad =
      Except.error "Normalized table does not contain a Date column after header detection" :=
  ⟨(claim_C6 [[Cell.num 1]] 0 0 []).1 (by decide),
   ((claim_C6 gEx 1 1 []).2.2.1 (by decide) (by decide)).1,
   (claim_C6 gEx 1 1 [Cell.empty, Cell.str "Date", Cell.str "Leeds", Cell.str "Unnamed: 3"]).2.2.2.2
     (by decide) (by decide) (by decide),
   (claim_C6 gPad 0 0 []).2.2.2.1 (by decide) (by decide)⟩

/-! ### Whitespace and regex lemmas for the label splitter -/

lemma dropWhile_append_of_all {p : Char → Bool} {u : List Char} (v : List Char)
    (h : ∀ c ∈ u, p c = true) : (u ++ v).dropWhile p = v.dropWhile p := by
  induction u with
  | nil => rfl
  | cons a u ih =>
    rw [List.cons_append, List.dropWhile_cons, if_pos (h a (List.mem_cons_self a u))]
    exact ih (fun c hc => h c (List.mem_cons_of_mem a hc))

lemma dropWhile_append_of_ne {p : Char → Bool} {u : List Char} (v : List Char)
    (h : u.dropWhile p ≠ []) : (u ++ v).dropWhile p = u.dropWhile p ++ v := by
  induction u with
  | nil => exact absurd rfl h
  | cons a u ih =>
    cases ha : p a
    · rw [List.cons_append, List.dropWhile_cons, if_neg (by simp [ha]),
        List.dropWhile_cons, if_neg (by simp [ha]), List.cons_append]
    · rw [List.dropWhile_cons, if_pos ha] at h
      rw [List.cons_append, List.dropWhile_cons, if_pos ha, List.dropWhile_cons, if_pos ha]
      exact ih h

lemma pyStrip_append_ws {a : List Char} (w : List Char)
    (h : ∀ c ∈ w, isPySpace c = true) : pyStrip (a ++ w) = pyStrip a := by
  unfold pyStrip
  by_cases ha : a.dropWhile isPySpace = []
  · rw [dropWhile_append_of_all w (List.dropWhile_eq_nil_iff.mp ha), ha,
      List.dropWhile_eq_nil_iff.mpr h]
  · rw [dropWhile_append_of_ne w ha, List.reverse_append,
      dropWhile_append_of_all _ (fun c hc => h c (List.mem_reverse.mp hc))]

lemma matchesTail_eq_some {t l : List Char} (h : matchesTail t = some l) :
    l ∈ SITE_TYPES ∧ t.takeWhile isPySpace ≠ [] ∧ t = t.takeWhile isPySpace ++ l := by
  unfold matchesTail at h
  split_ifs at h with hc
  cases h
  refine ⟨hc.2, hc.1, ?_⟩
  exact (List.takeWhile_append_dropWhile isPySpace t).symm

lemma mem_takeWhile_sat {p : Char → Bool} {t : List Char} :
    ∀ c ∈ t.takeWhile p, p c = true := by
  induction t with
  | nil => intro c hc; cases hc
  | cons a t ih =>
    intro c hc
    rw [List.takeWhile_cons] at hc
    by_cases ha : p a
    · rw [if_pos ha] at hc
      rcases List.mem_cons.mp hc with rfl | hc'
      · exact ha
      · exact ih c hc'
    · rw [if_neg ha] at hc
      cases hc

lemma reMatchFrom_sound {s : List Char} :
    ∀ {k : Nat} {a l : List Char}, reMatchFrom s k = some (a, l) →
      ∃ w, s = a ++ w ++ l ∧ (∀ c ∈ w, isPySpace c = true) ∧ w ≠ [] ∧ l ∈ SITE_TYPES := by
  intro k
  induction k with
  | zero =>
    intro a l h
    rw [reMatchFrom] at h
    cases hm : matchesTail s with
    | none => rw [hm] at h; cases h
    | some l' =>
      rw [hm] at h
      cases h
      obtain ⟨hmem, hne, heq⟩ := matchesTail_eq_some hm
      exact ⟨s.takeWhile isPySpace, by simpa using heq, mem_takeWhile_sat, hne, hmem⟩
  | succ k ih =>
    intro a l h
    rw [reMatchFrom] at h
    cases hm : matchesTail (s.drop (k + 1)) with
    | some l' =>
      rw [hm] at h
      cases h
      obtain ⟨hmem, hne, heq⟩ := matchesTail_eq_some hm
      refine ⟨(s.drop (k + 1)).takeWhile isPySpace, ?_, mem_takeWhile_sat, hne, hmem⟩
      conv_lhs => rw [← List.take_append_drop (k + 1) s]
      rw [List.append_assoc, ← heq]
    | none =>
      rw [hm] at h
      exact ih h

lemma reMatch_sound {s a l : List Char} (h : reMatch s = some (a, l)) :
    ∃ w, chopNl s = a ++ w ++ l ∧ (∀ c ∈ w, isPySpace c = true) ∧ w ≠ [] ∧ l ∈ SITE_TYPES :=
  reMatchFrom_sound h

lemma sites_getLast_ne_nl : ∀ l ∈ SITE_TYPES, l.getLast? ≠ some '\n' := by
  decide

lemma sites_ne_nil : ∀ l ∈ SITE_TYPES, l ≠ [] := by
  decide

lemma chopNl_eq_of_site_suffix {s l : List Char} (hl : l ∈ SITE_TYPES) (hs : l <:+ s) :
    chopNl s = s := by
  obtain ⟨p, hp⟩ := hs
  have hlast : s.getLast? = l.getLast? := by
    rw [← hp]
    exact List.getLast?_append_of_ne_nil p (sites_ne_nil l hl)
  unfold chopNl
  rw [if_neg (by rw [hlast]; exact sites_getLast_ne_nl l hl)]

lemma sites_no_suffix : ∀ l1 ∈ SITE_TYPES, ∀ l2 ∈ SITE_TYPES, l1 <:+ l2 → l1 = l2 := by
  decide

lemma site_suffix_unique {s l1 l2 : List Char} (h1 : l1 ∈ SITE_TYPES) (h2 : l2 ∈ SITE_TYPES)
    (s1 : l1 <:+ s) (s2 : l2 <:+ s) : l1 = l2 := by
  rcases List.suffix_or_suffix_of_suffix s1 s2 with h | h
  · exact sites_no_suffix l1 h1 l2 h2 h
  · exact (sites_no_suffix l2 h2 l1 h1 h).symm

lemma pyStrip_site : ∀ l ∈ SITE_TYPES, pyStrip l = l := by
  decide

lemma take_of_append {p l s : List Char} (h : s = p ++ l) :
    s.take (s.length - l.length) = p := by
  subst h
  rw [List.length_append, Nat.add_sub_cancel]
  exact List.take_left p l

lemma find?_eq_of_unique {α : Type} (p : α → Bool) :
    ∀ (l : List α) (x : α), x ∈ l → p x = true → (∀ y ∈ l, p y = true → y = x) →
      l.find? p = some x := by
  intro l
  induction l with
  | nil => intro x hx; cases hx
  | cons a l ih =>
    intro x hx hp huniq
    cases ha : p a
    · rw [List.find?_cons_of_neg]
      · rcases List.mem_cons.mp hx with rfl | hx'
        · rw [ha] at hp; cases hp
        · exact ih x hx' hp (fun y hy hpy => huniq y (List.mem_cons_of_mem a hy) hpy)
      · simp [ha]
    · rw [List.find?_cons_of_pos]
      · rw [huniq a (List.mem_cons_self a l) ha]
      · exact ha

lemma split_combo_suffix {s l : List Char} (hl : l ∈ SITE_TYPES) (hs : l <:+ s) :
    split_combo (some s) = (some (pyStrip (s.take (s.length - l.length))), some l) := by
  obtain ⟨p, hp⟩ := hs
  have hcs : chopNl s = s := chopNl_eq_of_site_suffix hl ⟨p, hp⟩
  cases hm : reMatch s with
  | some al =>
    obtain ⟨a, l'⟩ := al
    obtain ⟨w, hsw, hws, hwne, hl'⟩ := reMatch_sound hm
    rw [hcs] at hsw
    have hsuf' : l' <:+ s := ⟨a ++ w, hsw.symm⟩
    have hll : l' = l := site_suffix_unique hl' hl hsuf' ⟨p, hp⟩
    subst hll
    have hpw : a ++ w = p := List.append_cancel_right (hsw.symm.trans hp.symm)
    simp only [split_combo, hm]
    rw [take_of_append hp.symm]
    rw [← hpw, pyStrip_append_ws w hws, pyStrip_site l' hl]
  | none =>
    have hfind : SITE_TYPES.find? (fun st => decide (st <:+ s)) = some l :=
      find?_eq_of_unique _ SITE_TYPES l hl (decide_eq_true ⟨p, hp⟩)
        (fun y hy hpy => site_suffix_unique hy hl (of_decide_eq_true hpy) ⟨p, hp⟩)
    simp only [split_combo, hm, hfind]

/-- Claim C5, corrected: in the weekly combined strategy the fallback
behaves as claimed (a non-regex-matching combo ending in a known label
is split into trimmed prefix and label, and a null combo gives both
fields unspecified); the monthly combined strategy has no such fallback:
whatever the regex matches (also through its dollar anchor sitting
before one trailing newline) is split into the raw groups, and any
combo it does not match, a null combo included (via its string form
nan), keeps the whole string as region with site_type unspecified. -/
theorem claim_C5 :
    (∀ s l : List Char, l ∈ SITE_TYPES → reMatch s = none → l <:+ s →
      split_combo (some s) = (some (pyStrip (s.take (s.length - l.length))), some l)) ∧
    split_combo none = (none, none) ∧
    (∀ s a l : List Char, reMatch s = some (a, l) →
      split_combo_month (some s) = (some a, some l)) ∧
    (∀ s : List Char, reMatch s = none → split_combo_month (some s) = (some s, none)) ∧
    split_combo_month none = (some ("nan".data), none) := by
  refine ⟨fun s l hl _ hs => split_combo_suffix hl hs, rfl, ?_, ?_, ?_⟩
  · intro s a l h
    simp only [split_combo_month, Option.getD_some, h]
  · intro s h
    simp only [split_combo_month, Option.getD_some, h]
  · decide

/-- Counterexample to claim C5 as stated: in the monthly combined
strategy a combo that ends in the label Retail Parks without matching
the regex is not split (the label stays inside region and site_type is
unspecified), and a null combo resolves to region nan rather than to
two unspecified fields. -/
theorem claim_C5_cx :
    reMatch ("Retail Parks".data) = none ∧
    ("Retail Parks".data <:+ "Retail Parks".data) ∧
    split_combo_month (some ("Retail Parks".data)) = (some ("Retail Parks".data), none) ∧
    split_combo_month (some ("Retail Parks".data)) ≠
      (some ([] : List Char), some ("Retail Parks".data)) ∧
    split_combo_month none = (some ("nan".data), none) ∧
    split_combo_month none ≠ (none, none) := by
  decide

/-- Witness for claim C5 at concrete fallback, matching and
newline-terminated inputs. -/
theorem claim_C5_witness :
    split_combo (some ("Retail Parks".data)) =
      (some (pyStrip (("Retail Parks".data).take
        (("Retail Parks".data).length - ("Retail Parks".data).length))),
       some ("Retail Parks".data)) ∧
    split_combo_month (some ("Leeds Retail Parks\n".data)) =
      (some ("Leeds".data), some ("Retail Parks".data)) ∧
    split_combo_month (some ("Birmingham".data)) = (some ("Birmingham".data), none) :=
  ⟨claim_C5.1 ("Retail Parks".data) ("Retail Parks".data) (by decide) (by decide) (by decide),
   claim_C5.2.2.1 ("Leeds Retail Parks\n".data) ("Leeds".data) ("Retail Parks".data) (by decide),
   claim_C5.2.2.2.1 ("Birmingham".data) (by decide)⟩
